import Mathlib

/-!
Verification of the umich-balloons telemetry ingest pipeline.

This file gives a shallow embedding, in Lean 4, of the parts of the
repository that the checked claims are about:

* the conflict-resolving telemetry upsert of
  `dashboard/backend/tasks/code/helpers/db.py` (`upload_telemetry`),
* the field normalizers of
  `dashboard/backend/tasks/code/models/normalizers.py`
  (`normalize_voltage`, the DMS branch of `parse_coordinate`),
* the callsign validator of
  `dashboard/backend/tasks/code/models/callsign.py`,
* the extras-collection preprocessor of
  `dashboard/backend/tasks/code/models/packet.py`
  (`collect_extra_fields_revised`) together with the `data_time`
  comparison step of the protocol workers (`jobs/lora.py` and friends),
* the APRS worker's field extraction (`jobs/aprs.py`),
* the reply-type dispatch of the mounted WebSocket endpoint
  (`api/app/routers/map_data.py`).

Python floats are modelled as exact rationals (`ℚ`), Python ints as `ℤ`
or `ℕ`, SQL `NULL` / Python `None` as `Option`, raised exceptions as
`none` / dedicated error constructors.  Wall-clock bookkeeping
(`last_updated = now()`) is outside the model.  String handling is
modelled over the ASCII fragment of Python's `str` semantics.
-/

namespace UmichBalloons

/-! ## Telemetry upsert (`helpers/db.py`, `upload_telemetry`)

The SQL statement inserts a row keyed by `(payload_id, data_time)` and on
conflict merges field by field.  We model the per-key evolution of the
row: `Packet` carries the incoming bind parameters, `TelemetryRow` the
stored columns.  `position` is `ST_MakePoint(:longitude, :latitude)`,
modelled as the pair `(longitude, latitude)`. -/

/-- Incoming bind parameters of one `upload_telemetry` call (the fields of
a validated `ParsedPacket` that reach the SQL statement). -/
structure Packet where
  latitude  : ℚ
  longitude : ℚ
  accuracy  : Option ℚ
  altitude  : Option ℚ
  speed     : Option ℚ
  course    : Option ℚ
  battery   : Option ℚ
  extra     : Option String
deriving Repr, DecidableEq

/-- `ST_SetSRID(ST_MakePoint(:longitude, :latitude), 4326)` — the point
is built longitude first. -/
def Packet.pos (p : Packet) : ℚ × ℚ := (p.longitude, p.latitude)

/-- One stored row of `public.telemetry` for a fixed
`(payload_id, data_time)` key (minus `id` and the wall-clock
`last_updated` column). -/
structure TelemetryRow where
  position : ℚ × ℚ
  accuracy : Option ℚ
  altitude : Option ℚ
  speed    : Option ℚ
  course   : Option ℚ
  battery  : Option ℚ
  extra    : Option String
deriving Repr, DecidableEq

/-- The `INSERT` branch: every column is taken from the incoming packet. -/
def upload_telemetry_insert (p : Packet) : TelemetryRow :=
  { position := p.pos
    accuracy := p.accuracy
    altitude := p.altitude
    speed    := p.speed
    course   := p.course
    battery  := p.battery
    extra    := p.extra }

/-- The guard of the `position` / `accuracy` CASE arms:
`EXCLUDED.accuracy IS NOT NULL AND (telemetry.accuracy IS NOT NULL AND
EXCLUDED.accuracy < telemetry.accuracy)`. -/
def accuracyBeats (incoming stored : Option ℚ) : Bool :=
  match incoming, stored with
  | some a, some b => a < b
  | _, _ => false

/-- The CASE arm shared by `altitude`, `speed`, `course`, `battery` and
`extra`: `WHEN EXCLUDED.f IS NOT NULL AND (telemetry.f IS NULL) THEN
EXCLUDED.f ELSE telemetry.f`. -/
def fillForward {α : Type} (incoming stored : Option α) : Option α :=
  match incoming, stored with
  | some v, none => some v
  | _, _ => stored

/-- The `ON CONFLICT ... DO UPDATE SET` branch of the upsert. -/
def upload_telemetry_merge (r : TelemetryRow) (p : Packet) : TelemetryRow :=
  { position := if accuracyBeats p.accuracy r.accuracy then p.pos else r.position
    accuracy := if accuracyBeats p.accuracy r.accuracy then p.accuracy else r.accuracy
    altitude := fillForward p.altitude r.altitude
    speed    := fillForward p.speed r.speed
    course   := fillForward p.course r.course
    battery  := fillForward p.battery r.battery
    extra    := fillForward p.extra r.extra }

/-- One `upload_telemetry` call at a fixed `(payload_id, data_time)` key:
insert when no row exists, merge otherwise.  The returned boolean is
`was_inserted`, which the source derives from `xmax = 0` (the row was
newly created by this statement). -/
def upload_telemetry_upsert : Option TelemetryRow → Packet → TelemetryRow × Bool
  | none,   p => (upload_telemetry_insert p, true)
  | some r, p => (upload_telemetry_merge r p, false)

/-- Row produced by inserting packet `p` and then upserting the packets
of `ps` in order, all for the same `(payload_id, data_time)` key. -/
def runUpserts (p : Packet) (ps : List Packet) : TelemetryRow :=
  ps.foldl upload_telemetry_merge (upload_telemetry_insert p)

/-- The non-null incoming accuracies of a packet sequence. -/
def nonNullAccuracies (ps : List Packet) : List ℚ :=
  ps.filterMap Packet.accuracy

/-- Minimum of `a0` and all non-null accuracies of `ps`. -/
def minAccFrom (a0 : ℚ) (ps : List Packet) : ℚ :=
  (nonNullAccuracies ps).foldl min a0

/-- First packet in the list whose accuracy is exactly `some m`. -/
def firstAttaining (m : ℚ) : List Packet → Option Packet
  | [] => none
  | q :: qs => if q.accuracy = some m then some q else firstAttaining m qs

theorem fillForward_same {α : Type} (v : Option α) : fillForward v v = v := by
  cases v <;> rfl

theorem accuracyBeats_same (a : Option ℚ) : accuracyBeats a a = false := by
  cases a with
  | none => rfl
  | some x => simp [accuracyBeats]

theorem merge_insert_same (p : Packet) :
    upload_telemetry_merge (upload_telemetry_insert p) p = upload_telemetry_insert p := by
  simp [upload_telemetry_merge, upload_telemetry_insert, accuracyBeats_same,
    fillForward_same]

/-- C4: upserting the same `Packet` twice for the same key leaves the row
of the first call unchanged; `was_inserted` is `true` on the first call,
`false` on the second, and in general `was_inserted` is `true` exactly
when no row existed for the key before the call.  (`last_updated`, a
wall-clock column rewritten on every call, is outside the model.) -/
theorem upsert_idempotent :
    (∀ p : Packet,
      (upload_telemetry_upsert none p).2 = true ∧
      upload_telemetry_upsert (some (upload_telemetry_upsert none p).1) p =
        ((upload_telemetry_upsert none p).1, false)) ∧
    (∀ (s : Option TelemetryRow) (p : Packet),
      (upload_telemetry_upsert s p).2 = true ↔ s = none) := by
  constructor
  · intro p
    refine ⟨rfl, ?_⟩
    simp [upload_telemetry_upsert, merge_insert_same]
  · intro s p
    cases s <;> simp [upload_telemetry_upsert]

/-- C4 witness: evaluation of the idempotence law at a concrete packet. -/
theorem upsert_idempotent_witness :
    upload_telemetry_upsert
        (some (upload_telemetry_upsert none
          { latitude := 40, longitude := -75, accuracy := some 50,
            altitude := some 1200, speed := none, course := none,
            battery := none, extra := none }).1)
        { latitude := 40, longitude := -75, accuracy := some 50,
          altitude := some 1200, speed := none, course := none,
          battery := none, extra := none } =
      ((upload_telemetry_upsert none
          { latitude := 40, longitude := -75, accuracy := some 50,
            altitude := some 1200, speed := none, course := none,
            battery := none, extra := none }).1, false) :=
  (upsert_idempotent.1
    { latitude := 40, longitude := -75, accuracy := some 50,
      altitude := some 1200, speed := none, course := none,
      battery := none, extra := none }).2

theorem fillForward_cases {α : Type} (incoming stored : Option α) :
    ((stored = none ∧ incoming ≠ none) → fillForward incoming stored = incoming) ∧
    (¬(stored = none ∧ incoming ≠ none) → fillForward incoming stored = stored) := by
  cases incoming <;> cases stored <;> simp [fillForward]

/-- C2: on a conflicting upsert each of `altitude`, `speed`, `course`,
`battery` and `extra` is overwritten exactly when the stored value is
null and the incoming value is non-null, and is otherwise left
unchanged; the spec's example — a row with `accuracy=50`, `position=P1`,
`altitude=null` receiving `accuracy=10`, `position=P2`, `altitude=1000`
— ends as `position=P2`, `accuracy=10`, `altitude=1000`. -/
theorem merge_fill_forward :
    (∀ (r : TelemetryRow) (p : Packet),
      ((r.altitude = none ∧ p.altitude ≠ none) →
        (upload_telemetry_merge r p).altitude = p.altitude) ∧
      (¬(r.altitude = none ∧ p.altitude ≠ none) →
        (upload_telemetry_merge r p).altitude = r.altitude) ∧
      ((r.speed = none ∧ p.speed ≠ none) →
        (upload_telemetry_merge r p).speed = p.speed) ∧
      (¬(r.speed = none ∧ p.speed ≠ none) →
        (upload_telemetry_merge r p).speed = r.speed) ∧
      ((r.course = none ∧ p.course ≠ none) →
        (upload_telemetry_merge r p).course = p.course) ∧
      (¬(r.course = none ∧ p.course ≠ none) →
        (upload_telemetry_merge r p).course = r.course) ∧
      ((r.battery = none ∧ p.battery ≠ none) →
        (upload_telemetry_merge r p).battery = p.battery) ∧
      (¬(r.battery = none ∧ p.battery ≠ none) →
        (upload_telemetry_merge r p).battery = r.battery) ∧
      ((r.extra = none ∧ p.extra ≠ none) →
        (upload_telemetry_merge r p).extra = p.extra) ∧
      (¬(r.extra = none ∧ p.extra ≠ none) →
        (upload_telemetry_merge r p).extra = r.extra)) ∧
    upload_telemetry_merge
        { position := (-75, 40), accuracy := some 50, altitude := none,
          speed := none, course := none, battery := none, extra := none }
        { latitude := 41, longitude := -74, accuracy := some 10,
          altitude := some 1000, speed := none, course := none,
          battery := none, extra := none } =
      { position := (-74, 41), accuracy := some 10, altitude := some 1000,
        speed := none, course := none, battery := none, extra := none } := by
  constructor
  · intro r p
    refine ⟨(fillForward_cases p.altitude r.altitude).1,
            (fillForward_cases p.altitude r.altitude).2,
            (fillForward_cases p.speed r.speed).1,
            (fillForward_cases p.speed r.speed).2,
            (fillForward_cases p.course r.course).1,
            (fillForward_cases p.course r.course).2,
            (fillForward_cases p.battery r.battery).1,
            (fillForward_cases p.battery r.battery).2,
            (fillForward_cases p.extra r.extra).1,
            (fillForward_cases p.extra r.extra).2⟩
  · simp [upload_telemetry_merge, accuracyBeats, fillForward, Packet.pos]
    norm_num

/-- C2 witness: the fill-forward arm applied at a concrete row/packet
pair whose stored altitude is null and incoming altitude is non-null. -/
theorem merge_fill_forward_witness :
    (upload_telemetry_merge
        { position := (-75, 40), accuracy := some 50, altitude := none,
          speed := none, course := none, battery := none, extra := none }
        { latitude := 41, longitude := -74, accuracy := some 10,
          altitude := some 1000, speed := none, course := none,
          battery := none, extra := none }).altitude = some 1000 :=
  (merge_fill_forward.1
      { position := (-75, 40), accuracy := some 50, altitude := none,
        speed := none, course := none, battery := none, extra := none }
      { latitude := 41, longitude := -74, accuracy := some 10,
        altitude := some 1000, speed := none, course := none,
        battery := none, extra := none }).1 (by simp)

theorem foldl_min_le_init (l : List ℚ) (a : ℚ) : l.foldl min a ≤ a := by
  induction l generalizing a with
  | nil => exact le_refl a
  | cons b l ih => exact le_trans (ih (min a b)) (min_le_left a b)

theorem foldl_min_le_mem (l : List ℚ) (a x : ℚ) (hx : x ∈ l) :
    l.foldl min a ≤ x := by
  induction l generalizing a with
  | nil => cases hx
  | cons b l ih =>
    rcases List.mem_cons.mp hx with h | h
    · subst h
      exact le_trans (foldl_min_le_init l (min a x)) (min_le_right a x)
    · exact ih (min a b) h

theorem firstAttaining_append_some (m : ℚ) (l l2 : List Packet) (x : Packet)
    (h : firstAttaining m l = some x) :
    firstAttaining m (l ++ l2) = some x := by
  induction l with
  | nil => simp [firstAttaining] at h
  | cons q qs ih =>
    by_cases hq : q.accuracy = some m
    · simp [firstAttaining, hq] at h ⊢
      exact h
    · simp [firstAttaining, hq] at h ⊢
      exact ih h

theorem firstAttaining_append_none (m : ℚ) (l l2 : List Packet)
    (h : firstAttaining m l = none) :
    firstAttaining m (l ++ l2) = firstAttaining m l2 := by
  induction l with
  | nil => simp
  | cons q qs ih =>
    by_cases hq : q.accuracy = some m
    · simp [firstAttaining, hq] at h
    · simp [firstAttaining, hq] at h ⊢
      exact ih h

theorem firstAttaining_eq_none (m : ℚ) (l : List Packet)
    (h : ∀ x ∈ l, x.accuracy ≠ some m) :
    firstAttaining m l = none := by
  induction l with
  | nil => rfl
  | cons q qs ih =>
    have hq : q.accuracy ≠ some m := h q (List.mem_cons_self q qs)
    simp [firstAttaining, hq]
    exact ih (fun x hx => h x (List.mem_cons_of_mem q hx))

theorem minAccFrom_append_one (a0 : ℚ) (ps : List Packet) (q : Packet) :
    minAccFrom a0 (ps ++ [q]) =
      (match q.accuracy with
       | some a => min (minAccFrom a0 ps) a
       | none => minAccFrom a0 ps) := by
  cases hq : q.accuracy with
  | none =>
    simp [minAccFrom, nonNullAccuracies, List.filterMap_append, hq]
  | some a =>
    simp [minAccFrom, nonNullAccuracies, List.filterMap_append, hq,
      List.foldl_append]

theorem minAccFrom_le_init (a0 : ℚ) (ps : List Packet) :
    minAccFrom a0 ps ≤ a0 :=
  foldl_min_le_init _ _

theorem minAccFrom_le_acc (a0 : ℚ) (ps : List Packet) (x : Packet) (b : ℚ)
    (hx : x ∈ ps) (hb : x.accuracy = some b) :
    minAccFrom a0 ps ≤ b :=
  foldl_min_le_mem _ _ _ (List.mem_filterMap.mpr ⟨x, hx, hb⟩)

theorem runUpserts_append_one (p : Packet) (ps : List Packet) (q : Packet) :
    runUpserts p (ps ++ [q]) = upload_telemetry_merge (runUpserts p ps) q := by
  simp [runUpserts, List.foldl_append]

/-- Invariant of the accuracy/position merge arm over a packet sequence:
when the seed accuracy is non-null, the stored accuracy is the running
minimum of the non-null incoming accuracies and the stored position is
the one of the first packet attaining that minimum. -/
theorem runUpserts_accuracy_position (p : Packet) (ps : List Packet) (a0 : ℚ)
    (h : p.accuracy = some a0) :
    (runUpserts p ps).accuracy = some (minAccFrom a0 ps) ∧
    ∃ q, firstAttaining (minAccFrom a0 ps) (p :: ps) = some q ∧
      (runUpserts p ps).position = q.pos := by
  induction ps using List.reverseRecOn with
  | nil =>
    refine ⟨by simp [runUpserts, upload_telemetry_insert, h, minAccFrom, nonNullAccuracies], ?_⟩
    refine ⟨p, ?_, by simp [runUpserts, upload_telemetry_insert]⟩
    simp [firstAttaining, minAccFrom, nonNullAccuracies, h]
  | append_singleton ps q ih =>
    obtain ⟨racc, q0, hq0, hpos⟩ := ih
    have hcons : p :: (ps ++ [q]) = (p :: ps) ++ [q] := by simp
    rw [runUpserts_append_one, minAccFrom_append_one]
    cases hq : q.accuracy with
    | none =>
      refine ⟨?_, q0, ?_, ?_⟩
      · simp [upload_telemetry_merge, accuracyBeats, hq, racc]
      · rw [hcons]
        exact firstAttaining_append_some _ _ _ _ hq0
      · simpa [upload_telemetry_merge, accuracyBeats, hq] using hpos
    | some a =>
      simp only
      by_cases hlt : a < minAccFrom a0 ps
      · have hbeats : accuracyBeats (some a) (runUpserts p ps).accuracy = true := by
          simp [accuracyBeats, racc, hlt]
        have hmin : min (minAccFrom a0 ps) a = a := min_eq_right (le_of_lt hlt)
        refine ⟨?_, q, ?_, ?_⟩
        · rw [hmin]
          simp [upload_telemetry_merge, hq, hbeats]
        · rw [hmin, hcons]
          have hnone : firstAttaining a (p :: ps) = none := by
            refine firstAttaining_eq_none a (p :: ps) ?_
            intro x hx hax
            rcases List.mem_cons.mp hx with hx0 | hxps
            · subst hx0
              rw [h] at hax
              have ha0 : a0 = a := by simpa using hax
              have hle : minAccFrom a0 ps ≤ a :=
                le_of_le_of_eq (minAccFrom_le_init a0 ps) ha0
              exact absurd (lt_of_lt_of_le hlt hle) (lt_irrefl a)
            · have hle : minAccFrom a0 ps ≤ a := minAccFrom_le_acc a0 ps x a hxps hax
              exact absurd (lt_of_lt_of_le hlt hle) (lt_irrefl a)
          rw [firstAttaining_append_none a (p :: ps) [q] hnone]
          simp [firstAttaining, hq]
        · simp [upload_telemetry_merge, hq, hbeats]
      · have hmin : min (minAccFrom a0 ps) a = minAccFrom a0 ps :=
          min_eq_left (le_of_not_lt hlt)
        refine ⟨?_, q0, ?_, ?_⟩
        · rw [hmin]
          simp [upload_telemetry_merge, hq, racc, accuracyBeats, hlt]
        · rw [hmin, hcons]
          exact firstAttaining_append_some _ _ _ _ hq0
        · simpa [upload_telemetry_merge, hq, racc, accuracyBeats, hlt] using hpos

/-- When the stored accuracy is null it is never overwritten: the
`EXCLUDED.accuracy < telemetry.accuracy` guard is never satisfied, so
the accuracy stays null and the position stays put. -/
theorem foldl_merge_null_accuracy (ps : List Packet) :
    ∀ r : TelemetryRow, r.accuracy = none →
      (ps.foldl upload_telemetry_merge r).accuracy = none ∧
      (ps.foldl upload_telemetry_merge r).position = r.position := by
  induction ps with
  | nil => exact fun r hr => ⟨hr, rfl⟩
  | cons q qs ih =>
    intro r hr
    have hbeats : accuracyBeats q.accuracy none = false := by
      cases hq : q.accuracy <;> simp [accuracyBeats]
    have hmerge1 : (upload_telemetry_merge r q).accuracy = none := by
      simp [upload_telemetry_merge, hr, hbeats]
    have hmerge2 : (upload_telemetry_merge r q).position = r.position := by
      simp [upload_telemetry_merge, hr, hbeats]
    have := ih (upload_telemetry_merge r q) hmerge1
    exact ⟨this.1, by rw [List.foldl_cons]; rw [this.2, hmerge2]⟩

/-- First packet of the C1 counterexample: a fix with null accuracy. -/
def c1FirstPacket : Packet :=
  { latitude := 1, longitude := 2, accuracy := none, altitude := none,
    speed := none, course := none, battery := none, extra := none }

/-- Second packet of the C1 counterexample: same key, accuracy 10. -/
def c1SecondPacket : Packet :=
  { latitude := 3, longitude := 4, accuracy := some 10, altitude := none,
    speed := none, course := none, battery := none, extra := none }

/-- C1 counterexample: a null-accuracy insert followed by an upsert with
accuracy 10 leaves the stored accuracy null, so the final accuracy is
not the minimum (10) of the non-null incoming accuracies, and the
position stays with the first packet rather than the one that supplied
that minimum. -/
theorem upsert_accuracy_not_min_counterexample :
    nonNullAccuracies [c1FirstPacket, c1SecondPacket] = [10] ∧
    (runUpserts c1FirstPacket [c1SecondPacket]).accuracy = none ∧
    (runUpserts c1FirstPacket [c1SecondPacket]).accuracy ≠ some 10 ∧
    (runUpserts c1FirstPacket [c1SecondPacket]).position ≠ c1SecondPacket.pos := by
  refine ⟨by decide, by decide, by decide, by decide⟩

/-- C1 (amended): for a sequence of upserts on one key whose first
packet carries a non-null accuracy, the final accuracy is the minimum of
the non-null incoming accuracies and the final position is that of the
first packet attaining this minimum; when the first packet's accuracy is
null, accuracy and position are never overwritten (the SQL guard
requires the stored accuracy to be non-null). -/
theorem upsert_accuracy_monotonic_amended :
    (∀ (p : Packet) (ps : List Packet) (a0 : ℚ), p.accuracy = some a0 →
      (runUpserts p ps).accuracy = some (minAccFrom a0 ps) ∧
      ∃ q, firstAttaining (minAccFrom a0 ps) (p :: ps) = some q ∧
        (runUpserts p ps).position = q.pos) ∧
    (∀ (p : Packet) (ps : List Packet), p.accuracy = none →
      (runUpserts p ps).accuracy = none ∧
      (runUpserts p ps).position = p.pos) := by
  constructor
  · exact fun p ps a0 h => runUpserts_accuracy_position p ps a0 h
  · intro p ps h
    have := foldl_merge_null_accuracy ps (upload_telemetry_insert p)
      (by simp [upload_telemetry_insert, h])
    exact ⟨this.1, by simpa [runUpserts, upload_telemetry_insert] using this.2⟩

/-- C1 witness: the amended law evaluated on a concrete two-packet
sequence (accuracies 50 then 10): the stored accuracy ends at 10 and the
position at the second packet's point. -/
theorem upsert_accuracy_monotonic_amended_witness :
    (runUpserts
        { latitude := 40, longitude := -75, accuracy := some 50,
          altitude := none, speed := none, course := none,
          battery := none, extra := none }
        [c1SecondPacket]).accuracy =
      some (minAccFrom 50 [c1SecondPacket]) ∧
    minAccFrom 50 [c1SecondPacket] = 10 :=
  ⟨(upsert_accuracy_monotonic_amended.1
      { latitude := 40, longitude := -75, accuracy := some 50,
        altitude := none, speed := none, course := none,
        battery := none, extra := none }
      [c1SecondPacket] 50 rfl).1, by decide⟩

/-! ## Course validation (`models/packet.py`, `ParsedPacket.course`)

The field is declared `Field(None, ..., ge=0, le=360)`: pydantic accepts
a value in the closed interval `[0, 360]` unchanged and raises a
`ValidationError` (modelled as `none`) otherwise — there is no
clamping. -/

/-- The `ge=0, le=360` constraint on `ParsedPacket.course`. -/
def validate_course (c : ℚ) : Option ℚ :=
  if 0 ≤ c ∧ c ≤ 360 then some c else none

/-- C6 counterexample: course `360` is accepted as-is (the claim says it
never is), and the out-of-range course `400` is rejected outright rather
than clamped into the interval. -/
theorem course_counterexample :
    validate_course 360 = some 360 ∧
    validate_course 360 ≠ none ∧
    validate_course 400 = none ∧
    ∀ v : ℚ, validate_course 400 ≠ some v := by
  refine ⟨by decide, by decide, by decide, ?_⟩
  intro v h
  rw [show validate_course 400 = none by decide] at h
  cases h

/-- C6 (amended): a stored course lies in the closed interval
`[0, 360]` and equals the incoming value; out-of-range inputs are
rejected with a validation error, not clamped. -/
theorem course_range_amended :
    (∀ c v : ℚ, validate_course c = some v → 0 ≤ v ∧ v ≤ 360 ∧ v = c) ∧
    (∀ c : ℚ, c < 0 ∨ 360 < c → validate_course c = none) := by
  constructor
  · intro c v h
    unfold validate_course at h
    by_cases hc : 0 ≤ c ∧ c ≤ 360
    · rw [if_pos hc] at h
      cases h
      exact ⟨hc.1, hc.2, rfl⟩
    · rw [if_neg hc] at h
      cases h
  · intro c h
    unfold validate_course
    rw [if_neg ?_]
    rcases h with h | h
    · exact fun hc => absurd hc.1 (not_le.mpr h)
    · exact fun hc => absurd hc.2 (not_le.mpr h)

/-- C6 witness: the amended range law applied at the accepted boundary
value `360` and the rejected value `400`. -/
theorem course_range_amended_witness :
    ((0 : ℚ) ≤ 360 ∧ (360 : ℚ) ≤ 360 ∧ (360 : ℚ) = 360) ∧
    validate_course 400 = none :=
  ⟨course_range_amended.1 360 360 (by decide),
   course_range_amended.2 400 (Or.inr (by norm_num))⟩

/-! ## Battery voltage normalization (`models/normalizers.py`,
`normalize_voltage`)

Python numerics are modelled by `PyNum` (`int` vs `float` matters: the
tenths-of-a-volt heuristic applies only to `int`); raised `ValueError`s
are modelled as `none`. -/

/-- A Python numeric value as seen by `normalize_voltage`. -/
inductive PyNum where
  | int (n : ℤ)
  | float (q : ℚ)
deriving Repr, DecidableEq

/-- `v_float = float(value)`. -/
def PyNum.toQ : PyNum → ℚ
  | .int n => (n : ℚ)
  | .float q => q

/-- `normalize_voltage`: reject negatives, treat `> 1000` as millivolts,
treat an `int` in `[20, 60]` as tenths of a volt, otherwise return the
value unchanged as volts. -/
def normalize_voltage (v : PyNum) : Option ℚ :=
  if v.toQ < 0 then none
  else if 1000 < v.toQ then some (v.toQ / 1000)
  else
    match v with
    | .int n => if 20 ≤ n ∧ n ≤ 60 then some ((n : ℚ) / 10) else some v.toQ
    | .float _ => some v.toQ

/-- C8: battery-voltage normalization rejects negatives, divides values
strictly above 1000 by 1000, divides integers in `[20, 60]` by 10, and
returns everything else unchanged; `3892 ↦ 3.892`, `38 ↦ 3.8`,
`3.8 ↦ 3.8`, `-1` rejected. -/
theorem normalize_voltage_rules :
    (∀ v : PyNum, v.toQ < 0 → normalize_voltage v = none) ∧
    (∀ v : PyNum, 1000 < v.toQ → normalize_voltage v = some (v.toQ / 1000)) ∧
    (∀ n : ℤ, 20 ≤ n → n ≤ 60 → normalize_voltage (.int n) = some ((n : ℚ) / 10)) ∧
    (∀ v : PyNum, 0 ≤ v.toQ → v.toQ ≤ 1000 →
      (∀ n : ℤ, v = .int n → n < 20 ∨ 60 < n) → normalize_voltage v = some v.toQ) ∧
    normalize_voltage (.int 3892) = some (3892 / 1000) ∧
    normalize_voltage (.int 38) = some (38 / 10) ∧
    normalize_voltage (.float (38 / 10)) = some (38 / 10) ∧
    normalize_voltage (.int (-1)) = none := by
  refine ⟨?_, ?_, ?_, ?_, by norm_num [normalize_voltage, PyNum.toQ],
    by norm_num [normalize_voltage, PyNum.toQ],
    by norm_num [normalize_voltage, PyNum.toQ],
    by norm_num [normalize_voltage, PyNum.toQ]⟩
  · intro v h
    simp [normalize_voltage, h]
  · intro v h
    have h0 : ¬ v.toQ < 0 := not_lt.mpr (le_trans (by norm_num) (le_of_lt h))
    simp [normalize_voltage, h0, h]
  · intro n h1 h2
    have h0 : ¬ (PyNum.int n).toQ < 0 := by
      simp [PyNum.toQ]
      exact_mod_cast le_trans (by norm_num : (0 : ℤ) ≤ 20) h1
    have h1000 : ¬ 1000 < (PyNum.int n).toQ := by
      simp [PyNum.toQ]
      exact_mod_cast le_trans h2 (by norm_num : (60 : ℤ) ≤ 1000)
    simp [normalize_voltage, h0, h1000, h1, h2]
  · intro v h0 h1000 hint
    cases v with
    | int n =>
      rcases hint n rfl with h | h
      · simp [normalize_voltage, not_lt.mpr h0, not_lt.mpr h1000, not_le.mpr h]
      · have : ¬ (20 ≤ n ∧ n ≤ 60) := fun hc => absurd hc.2 (not_le.mpr h)
        simp [normalize_voltage, not_lt.mpr h0, not_lt.mpr h1000, this]
    | float q =>
      simp [normalize_voltage, not_lt.mpr h0, not_lt.mpr h1000]

/-- C8 witness: the tenths-of-a-volt heuristic arm applied at the
concrete integer `38`. -/
theorem normalize_voltage_rules_witness :
    normalize_voltage (PyNum.int 38) = some ((38 : ℚ) / 10) :=
  normalize_voltage_rules.2.2.1 38 (by norm_num) (by norm_num)

/-! ## Character helpers shared by the string-handling models

These model the ASCII fragment of the Python string operations the
source uses (`str.upper`, `str.isalpha`, `str.isdigit`, `int(...)`,
membership tests). -/

/-- ASCII decimal digit test. -/
def isDigitChar (c : Char) : Bool := decide ('0' ≤ c) && decide (c ≤ '9')

/-- Numeric value of an ASCII digit. -/
def digitVal (c : Char) : ℕ := c.toNat - 48

/-- Value of a string of ASCII digits, most significant first. -/
def natOfDigits (l : List Char) : ℕ :=
  l.foldl (fun acc c => 10 * acc + digitVal c) 0

/-- `str.upper` on one character, ASCII fragment. -/
def pyUpperChar (c : Char) : Char :=
  if 'a' ≤ c ∧ c ≤ 'z' then Char.ofNat (c.toNat - 32) else c

/-- `needle` is a prefix of `hay`. -/
def startsWithSeq : List Char → List Char → Bool
  | [], _ => true
  | _ :: _, [] => false
  | a :: as2, b :: bs => a == b && startsWithSeq as2 bs

/-- Python's substring containment `needle in hay`. -/
def containsSeq (needle : List Char) : List Char → Bool
  | [] => needle.isEmpty
  | c :: rest => startsWithSeq needle (c :: rest) || containsSeq needle rest

/-- `s.split(" ")[0]`: the characters before the first space. -/
def firstSpaceToken (s : List Char) : List Char :=
  s.takeWhile (fun c => c != ' ')

/-- Python `int(s)` for a digit string with optional sign; anything else
raises `ValueError` (`none`). -/
def pyInt (s : List Char) : Option ℤ :=
  match s with
  | [] => none
  | '-' :: rest =>
    if !rest.isEmpty && rest.all isDigitChar then some (-(natOfDigits rest : ℤ))
    else none
  | '+' :: rest =>
    if !rest.isEmpty && rest.all isDigitChar then some ((natOfDigits rest : ℤ))
    else none
  | l =>
    if l.all isDigitChar then some ((natOfDigits l : ℤ)) else none

/-! ## APRS worker field extraction (`jobs/aprs.py`, `process_aprs`)

The worker reads the fields of an `aprspy`-parsed packet (the parsing
library is an external dependency; its outputs for the reference frame
are recorded in the worker's own comment block) and builds the dict
handed to the normalizer. -/

/-- The `aprspy` packet fields that `process_aprs` reads. -/
structure AprsLibPacket where
  source    : List Char
  latitude  : ℚ
  longitude : ℚ
  ambiguity : ℚ
  altitude  : Option ℚ
  speed     : Option ℚ
  course    : Option ℚ
  comment   : List Char
deriving Repr, DecidableEq

/-- `SPEED_CONVERSIONS_TO_MPS["knots"]` from `models/normalizers.py`
(the table is defined but never consulted by any worker). -/
def knotsToMps : ℚ := 1852 / 3600

/-- The altitude entry of `parsed_aprs`: `packet.altitude` when present,
else `int(packet.comment.split(" ")[0]) * 0.3048` when the comment
contains `" ft"` (a failed `int` parse leaves the key absent). -/
def process_aprs_altitude (pkt : AprsLibPacket) : Option ℚ :=
  match pkt.altitude with
  | some a => some a
  | none =>
    if containsSeq (String.toList (" ft")) pkt.comment then
      match pyInt (firstSpaceToken pkt.comment) with
      | some n => some ((n : ℚ) * (3048 / 10000))
      | none => none
    else none

/-- The speed entry of `parsed_aprs`:
`parsed_aprs['speed'] = packet.speed` — no unit conversion. -/
def process_aprs_speed (pkt : AprsLibPacket) : Option ℚ := pkt.speed

/-- `aprspy` outputs for the frame
`KF8ABL-11>APRS,WIDE2-1:!4217.67N/08342.78WO010/005100 ft`, as recorded
in the comment block of `process_aprs`: no altitude extension, speed `5`
(knots), course `10`, comment `100 ft`. -/
def kf8ablPacket : AprsLibPacket :=
  { source := String.toList ("KF8ABL-11"), latitude := 422945 / 10000,
    longitude := -83713 / 1000, ambiguity := 0, altitude := none,
    speed := some 5, course := some 10, comment := String.toList ("100 ft") }

/-- C5 (code evaluated at the failing input): on the reference frame the
worker converts the `100 ft` comment altitude to `30.48` m, but passes
the APRS speed (`5`, knots) to the normalizer unconverted: the resulting
speed is `5` rather than `5 × 1852/3600` m/s, even though
`ParsedPacket.speed` is documented as m/s and the unused
`SPEED_CONVERSIONS_TO_MPS` table defines the knots factor. -/
theorem process_aprs_speed_unconverted :
    process_aprs_altitude kf8ablPacket = some (762 / 25) ∧
    (762 : ℚ) / 25 = 100 * (3048 / 10000) ∧
    process_aprs_speed kf8ablPacket = some 5 ∧
    process_aprs_speed kf8ablPacket ≠ some (5 * knotsToMps) ∧
    (∀ pkt : AprsLibPacket, process_aprs_speed pkt = pkt.speed) := by
  refine ⟨?_, by norm_num, rfl, ?_, fun pkt => rfl⟩
  · simp only [process_aprs_altitude, kf8ablPacket]
    rw [if_pos (by decide)]
    rw [show pyInt (firstSpaceToken (String.toList ("100 ft"))) = some 100 by decide]
    norm_num
  · simp [process_aprs_speed, kf8ablPacket, knotsToMps]
    norm_num

/-! ## Extras collection (`models/packet.py`,
`ParsedPacket.collect_extra_fields_revised`) and the workers' `data_time`
step (`jobs/lora.py` lines 65–97, likewise `jobs/aprs.py` and
`jobs/iridium.py`)

The mode-`before` model validator partitions the input dict into known
model fields, sibling extras and an explicit `extra` dict, and returns
only known keys plus the merged `extra` dict; pydantic therefore exposes
exactly those keys as attributes of the validated `ParsedPacket`.
Python dict keys are unique; input dicts are association lists read
accordingly. -/

/-- A JSON-ish value. -/
inductive JVal where
  | str (s : String)
  | num (q : ℚ)
  | boolean (b : Bool)
  | null
  | dict (entries : List (String × JVal))
deriving Repr

/-- `value` is a Python dict. -/
def JVal.isDict : JVal → Bool
  | .dict _ => true
  | _ => false

/-- Entries of a dict value (`[]` otherwise). -/
def JVal.dictEntries : JVal → List (String × JVal)
  | .dict d => d
  | _ => []

/-- Every key that maps to a defined `ParsedPacket` field other than
`extra`: the field names plus all `AliasChoices` entries. -/
def knownMainFieldInputKeys : List String :=
  ["callsign", "call",
   "latitude", "lat", "latitude_deg", "lat_deg", "lat_dd",
   "longitude", "lon", "longitude_deg", "lon_deg", "lon_dd",
   "accuracy", "acc", "hdop", "cep",
   "altitude", "alt", "elevation", "elev", "height", "hgt",
   "speed", "spd",
   "heading", "hdg", "course", "cse", "direction", "dir",
   "battery_voltage", "voltage", "batt_v", "vbatt", "battery", "bat", "volt", "v"]

/-- The keys routed into `processed_data`: defined main fields (the
`extra` key itself is diverted beforehand and is not in the known set). -/
def processedFields (data : List (String × JVal)) : List (String × JVal) :=
  data.filter (fun kv => decide (kv.1 ∈ knownMainFieldInputKeys))

/-- The keys routed into `sibling_extras`: unknown top-level keys, plus a
top-level `extra` whose value is not a dict. -/
def siblingExtras (data : List (String × JVal)) : List (String × JVal) :=
  data.filter (fun kv =>
    if kv.1 == "extra" then !kv.2.isDict
    else !(decide (kv.1 ∈ knownMainFieldInputKeys)))

/-- The content of an explicit `extra` dict, when present. -/
def explicitExtrasContent (data : List (String × JVal)) : List (String × JVal) :=
  match List.lookup ("extra") data with
  | some v => if v.isDict then v.dictEntries else []
  | none => []

/-- Python `base.copy(); base.update(overrides)`: overridden keys take
the override value, fresh override keys are appended. -/
def updateDict (base overrides : List (String × JVal)) : List (String × JVal) :=
  base.map (fun kv =>
    match List.lookup kv.1 overrides with
    | some v => (kv.1, v)
    | none => kv) ++
  overrides.filter (fun kv => (List.lookup kv.1 base).isNone)

/-- `collect_extra_fields_revised`: the data pydantic goes on to parse —
the known main-field keys plus the merged `extra` dict (explicit extras
win over sibling extras on clashes). -/
def collect_extra_fields_revised (data : List (String × JVal)) :
    List (String × JVal) :=
  processedFields data ++
    [("extra", JVal.dict (updateDict (siblingExtras data) (explicitExtrasContent data)))]

/-- Outcome of the worker's `data_time` step. -/
inductive LoraOutcome where
  | persisted (dataTime : JVal) (clamped : Bool)
  | attributeError
deriving Repr

/-- The tail of `process_lora` (identical in the APRS and Iridium
workers): read `parsed_payload.data_time`, clamp it to the envelope
timestamp when it lies in the future, then persist.  Attribute lookup on
the validated model sees exactly the keys the preprocessor returned; a
missing attribute raises `AttributeError`, which the surrounding
`except TypeError` does not catch, so the task aborts before
`upload_telemetry`.  An incomparable timestamp pair raises `TypeError`,
which is caught, and the value is persisted unclamped. -/
def process_lora_data_time (packetAttrs : List (String × JVal))
    (envelopeTs : ℚ) : LoraOutcome :=
  match List.lookup ("data_time") packetAttrs with
  | none => .attributeError
  | some (.num t) =>
    if envelopeTs < t then .persisted (.num envelopeTs) true
    else .persisted (.num t) false
  | some v => .persisted v false

theorem lookup_filter_eq_none {β : Type} (k : String) (f : String × β → Bool)
    (l : List (String × β)) (hk : ∀ v, f (k, v) = false) :
    List.lookup k (l.filter f) = none := by
  induction l with
  | nil => rfl
  | cons kv rest ih =>
    rcases kv with ⟨k2, v2⟩
    by_cases hf : f (k2, v2) = true
    · rw [List.filter_cons_of_pos hf]
      have hne : (k == k2) = false := by
        by_cases he : k2 = k
        · subst he
          rw [hk v2] at hf
          cases hf
        · rw [beq_eq_false_iff_ne]
          exact fun hkk => he hkk.symm
      simp only [List.lookup, hne]
      exact ih
    · rw [List.filter_cons_of_neg (by simpa using hf)]
      exact ih

theorem lookup_append_of_none {β : Type} (k : String)
    (l1 l2 : List (String × β)) (h : List.lookup k l1 = none) :
    List.lookup k (l1 ++ l2) = List.lookup k l2 := by
  induction l1 with
  | nil => rfl
  | cons kv rest ih =>
    rcases kv with ⟨k2, v2⟩
    by_cases he : (k == k2) = true
    · simp only [List.lookup, he] at h
      cases h
    · have he2 : (k == k2) = false := by
        cases hb : (k == k2) with
        | true => exact absurd hb he
        | false => rfl
      simp only [List.lookup, he2, List.cons_append] at h ⊢
      exact ih h

/-- The input of the C3 failing run: a valid LoRa JSON payload carrying
a (future) `data_time`. -/
def c3Input : List (String × JVal) :=
  [("callsign", JVal.str ("K8XYZ")), ("lat", JVal.num 40),
   ("lon", JVal.num (-75)), ("data_time", JVal.num 4102444800)]

/-- C3 (code evaluated against the claim): `data_time` is not a
`ParsedPacket` field and no alias maps to it, so the preprocessor routes
it into the `extra` dict and the validated model exposes no `data_time`
attribute; the worker's comparison therefore raises `AttributeError`
for every input, the clamp never runs, and nothing is persisted.  On the
concrete failing input the key demonstrably sits inside `extra`. -/
theorem data_time_clamp_unreachable :
    (∀ data : List (String × JVal),
      List.lookup ("data_time") (collect_extra_fields_revised data) = none) ∧
    (∀ (data : List (String × JVal)) (ts : ℚ),
      process_lora_data_time (collect_extra_fields_revised data) ts =
        .attributeError) ∧
    List.lookup ("extra") (collect_extra_fields_revised c3Input) =
      some (JVal.dict [(("data_time"), JVal.num 4102444800)]) := by
  have hmain : ∀ data : List (String × JVal),
      List.lookup ("data_time") (collect_extra_fields_revised data) = none := by
    intro data
    unfold collect_extra_fields_revised
    rw [lookup_append_of_none]
    · rfl
    · refine lookup_filter_eq_none _ _ _ ?_
      intro v
      exact (show decide ((("data_time") : String) ∈ knownMainFieldInputKeys) = false
        by decide)
  refine ⟨hmain, ?_, ?_⟩
  · intro data ts
    unfold process_lora_data_time
    rw [hmain data]
  · rfl

/-! ## DMS coordinate parsing (`models/normalizers.py`,
`parse_coordinate`, string branch)

The regex captures four groups: degrees `(\d{1,3})`, optional minutes
`(\d{1,2})`, optional seconds `(\d{1,2}(?:\.\d+)?)` (only inside the
minutes group) and an optional direction `([NSEWnsew])`.  `DmsGroups`
holds the captured strings; `dmsShapeOK` states exactly the shapes the
regex guarantees (all numeric groups are digit-only — the pattern admits
no sign).  `parse_coordinate_dms` is the post-match computation of
lines 96–129; `none` models the raised `ValueError`. -/

/-- The captured groups of a successful DMS regex match. -/
structure DmsGroups where
  deg : List Char
  minutesPart : Option (List Char)
  secondsIntPart : Option (List Char)
  secondsFracPart : Option (List Char)
  dirPart : Option Char
deriving Repr, DecidableEq

/-- Shapes that the regex guarantees for the captured groups. -/
def dmsShapeOK (g : DmsGroups) : Bool :=
  (decide (1 ≤ g.deg.length) && decide (g.deg.length ≤ 3) && g.deg.all isDigitChar) &&
  (match g.minutesPart with
   | none => true
   | some m => decide (1 ≤ m.length) && decide (m.length ≤ 2) && m.all isDigitChar) &&
  (match g.secondsIntPart with
   | none => true
   | some si =>
     (decide (1 ≤ si.length) && decide (si.length ≤ 2) && si.all isDigitChar) &&
       g.minutesPart.isSome) &&
  (match g.secondsFracPart with
   | none => true
   | some fr => (decide (1 ≤ fr.length) && fr.all isDigitChar) && g.secondsIntPart.isSome) &&
  (match g.dirPart with
   | none => true
   | some d => [('N'), 'S', 'E', 'W', 'n', 's', 'e', 'w'].contains d)

/-- `minutes = float(min_str) if min_str else 0.0`. -/
def minutesVal (g : DmsGroups) : ℚ :=
  match g.minutesPart with
  | some m => (natOfDigits m : ℚ)
  | none => 0

/-- `seconds = float(sec_str) if sec_str else 0.0`; a fractional part
`dd.fff` contributes `fff / 10 ^ len`. -/
def secondsVal (g : DmsGroups) : ℚ :=
  match g.secondsIntPart with
  | some si =>
    (natOfDigits si : ℚ) +
      (match g.secondsFracPart with
       | some fr => (natOfDigits fr : ℚ) / (10 : ℚ) ^ fr.length
       | none => 0)
  | none => 0

/-- Which coordinate is being parsed (`coord_type`). -/
inductive CoordType where
  | lat
  | lon
deriving Repr, DecidableEq

/-- `max_val = 90.0 if coord_type == 'lat' else 180.0`. -/
def coordMax : CoordType → ℚ
  | .lat => 90
  | .lon => 180

/-- Post-match computation of `parse_coordinate`: reject minutes or
seconds `≥ 60`, combine into decimal degrees, validate the direction
letter against the coordinate type, negate for `S`/`W`, and apply the
final bounds check. -/
def parse_coordinate_dms (ct : CoordType) (g : DmsGroups) : Option ℚ :=
  let degrees : ℚ := (natOfDigits g.deg : ℚ)
  let minutes := minutesVal g
  let seconds := secondsVal g
  if 60 ≤ minutes ∨ 60 ≤ seconds then none
  else
    let dd0 := degrees + minutes / 60 + seconds / 3600
    let signed : Option ℚ :=
      match g.dirPart with
      | none => some dd0
      | some d =>
        match ct with
        | .lat =>
          if pyUpperChar d = 'N' then some dd0
          else if pyUpperChar d = 'S' then some (-dd0) else none
        | .lon =>
          if pyUpperChar d = 'E' then some dd0
          else if pyUpperChar d = 'W' then some (-dd0) else none
    match signed with
    | none => none
    | some dd => if -(coordMax ct) ≤ dd ∧ dd ≤ coordMax ct then some dd else none

theorem minutesVal_nonneg (g : DmsGroups) : 0 ≤ minutesVal g := by
  cases hm : g.minutesPart with
  | none => simp [minutesVal, hm]
  | some m =>
    simp only [minutesVal, hm]
    exact_mod_cast Nat.zero_le (natOfDigits m)

theorem secondsVal_nonneg (g : DmsGroups) : 0 ≤ secondsVal g := by
  cases hs : g.secondsIntPart with
  | none => simp [secondsVal, hs]
  | some si =>
    simp only [secondsVal, hs]
    refine add_nonneg (by exact_mod_cast Nat.zero_le (natOfDigits si)) ?_
    cases hf : g.secondsFracPart with
    | none => simp
    | some fr =>
      simp only []
      exact div_nonneg (by exact_mod_cast Nat.zero_le (natOfDigits fr))
        (pow_nonneg (by norm_num) fr.length)

theorem dmsBase_nonneg (g : DmsGroups) :
    0 ≤ (natOfDigits g.deg : ℚ) + minutesVal g / 60 + secondsVal g / 3600 := by
  refine add_nonneg (add_nonneg ?_ ?_) ?_
  · exact_mod_cast Nat.zero_le (natOfDigits g.deg)
  · exact div_nonneg (minutesVal_nonneg g) (by norm_num)
  · exact div_nonneg (secondsVal_nonneg g) (by norm_num)

/-- C10: a DMS-matched coordinate string with minutes `≥ 60` or seconds
`≥ 60` is rejected with an error rather than normalized, and a
DMS-matched string yields a negative coordinate only through an `S`/`W`
direction suffix — the numeric groups are digit-only and cannot carry a
sign. -/
theorem parse_coordinate_dms_rules :
    (∀ (ct : CoordType) (g : DmsGroups), dmsShapeOK g = true →
      (60 ≤ minutesVal g ∨ 60 ≤ secondsVal g) →
      parse_coordinate_dms ct g = none) ∧
    (∀ (ct : CoordType) (g : DmsGroups) (v : ℚ), dmsShapeOK g = true →
      parse_coordinate_dms ct g = some v → v < 0 →
      ∃ d, g.dirPart = some d ∧
        (pyUpperChar d = 'S' ∨ pyUpperChar d = 'W')) := by
  constructor
  · intro ct g _ h60
    simp [parse_coordinate_dms, h60]
  · intro ct g v _ hok hneg
    unfold parse_coordinate_dms at hok
    by_cases h60 : 60 ≤ minutesVal g ∨ 60 ≤ secondsVal g
    · rw [if_pos h60] at hok
      cases hok
    · rw [if_neg h60] at hok
      simp only at hok
      have hbase := dmsBase_nonneg g
      cases hd : g.dirPart with
      | none =>
        rw [hd] at hok
        simp only at hok
        by_cases hb : -(coordMax ct) ≤ (natOfDigits g.deg : ℚ) + minutesVal g / 60 +
            secondsVal g / 3600 ∧
            (natOfDigits g.deg : ℚ) + minutesVal g / 60 + secondsVal g / 3600 ≤ coordMax ct
        · rw [if_pos hb] at hok
          cases hok
          exact absurd hbase (not_le.mpr hneg)
        · rw [if_neg hb] at hok
          cases hok
      | some d =>
        rw [hd] at hok
        refine ⟨d, rfl, ?_⟩
        cases ct with
        | lat =>
          by_cases hN : pyUpperChar d = 'N'
          · simp only [hN, if_pos] at hok
            by_cases hb : -(coordMax CoordType.lat) ≤ (natOfDigits g.deg : ℚ) +
                minutesVal g / 60 + secondsVal g / 3600 ∧
                (natOfDigits g.deg : ℚ) + minutesVal g / 60 + secondsVal g / 3600 ≤
                  coordMax CoordType.lat
            · rw [if_pos hb] at hok
              cases hok
              exact absurd hbase (not_le.mpr hneg)
            · rw [if_neg hb] at hok
              cases hok
          · by_cases hS : pyUpperChar d = 'S'
            · exact Or.inl hS
            · simp only [hN, hS, if_neg, if_false] at hok
              cases hok
        | lon =>
          by_cases hE : pyUpperChar d = 'E'
          · simp only [hE, if_pos] at hok
            by_cases hb : -(coordMax CoordType.lon) ≤ (natOfDigits g.deg : ℚ) +
                minutesVal g / 60 + secondsVal g / 3600 ∧
                (natOfDigits g.deg : ℚ) + minutesVal g / 60 + secondsVal g / 3600 ≤
                  coordMax CoordType.lon
            · rw [if_pos hb] at hok
              cases hok
              exact absurd hbase (not_le.mpr hneg)
            · rw [if_neg hb] at hok
              cases hok
          · by_cases hW : pyUpperChar d = 'W'
            · exact Or.inr hW
            · simp only [hE, hW, if_neg, if_false] at hok
              cases hok

/-- Minutes group `99` of a matched string such as `42:99N`. -/
def dmsBadMinutes : DmsGroups :=
  { deg := ['4', '2'], minutesPart := some ['9', '9'], secondsIntPart := none,
    secondsFracPart := none, dirPart := some ('N') }

/-- Groups of the matched string `42:30S`. -/
def dmsSouth : DmsGroups :=
  { deg := ['4', '2'], minutesPart := some ['3', '0'], secondsIntPart := none,
    secondsFracPart := none, dirPart := some ('S') }

/-- C10 witness: minutes `99` is rejected, and the negative parse of
`42:30S` indeed carries its sign through the `S` suffix. -/
theorem parse_coordinate_dms_rules_witness :
    parse_coordinate_dms CoordType.lat dmsBadMinutes = none ∧
    ∃ d, dmsSouth.dirPart = some d ∧
      (pyUpperChar d = 'S' ∨ pyUpperChar d = 'W') := by
  constructor
  · refine parse_coordinate_dms_rules.1 CoordType.lat dmsBadMinutes (by decide)
      (Or.inl ?_)
    show (60 : ℚ) ≤ minutesVal dmsBadMinutes
    have hm99 : natOfDigits ['9', '9'] = 99 := by decide
    norm_num [minutesVal, dmsBadMinutes, hm99]
  · have hd42 : natOfDigits ['4', '2'] = 42 := by decide
    have hm30 : natOfDigits ['3', '0'] = 30 := by decide
    have hup : pyUpperChar ('S') = 'S' := by decide
    have hne : ¬ (('S' : Char) = 'N') := by decide
    refine parse_coordinate_dms_rules.2 CoordType.lat dmsSouth (-(85 / 2))
      (by decide) ?_ (by norm_num)
    show parse_coordinate_dms CoordType.lat dmsSouth = some (-(85 / 2))
    norm_num [parse_coordinate_dms, dmsSouth, minutesVal, secondsVal,
      hd42, hm30, hup, hne, coordMax]

/-! ## WebSocket reply dispatch (`api/app/routers/map_data.py`,
`websocket_endpoint`)

`app/main.py` mounts `map_data.router` (the duplicate endpoint in
`routers/websockets.py` is commented out of the app), so this is the
live `/ws` handler.  Each handled client message sends at most one reply
whose `type` depends on the message type, on whether the handler body
succeeded, and — for `updateViewport` — on whether any new cells were
joined. -/

/-- Client-to-server message types dispatched by the endpoint. -/
inductive WsClientMsgType where
  | getInitialData
  | updateViewport
  | getTelemetry
  | unknown (s : String)
deriving Repr, DecidableEq

/-- Runtime facts of one handler pass: whether the body (request
validation, DB fetch) succeeded, and whether `update_subscriptions`
returned a non-empty `cells_to_join`. -/
structure WsHandlerRun where
  succeeds : Bool
  joinedNewCells : Bool
deriving Repr, DecidableEq

/-- The `type` fields of the replies the endpoint sends for one incoming
message, in order. -/
def wsReplyTypes (m : WsClientMsgType) (run : WsHandlerRun) : List String :=
  match m with
  | .getInitialData =>
    if run.succeeds then [("initialPathSegments")] else [("error")]
  | .updateViewport =>
    if run.succeeds then
      if run.joinedNewCells then [("catchUpPathSegments")] else []
    else [("error")]
  | .getTelemetry =>
    if run.succeeds then [("telemetryResponse")] else [("error")]
  | .unknown _ => [("error")]

/-- The realtime fan-out type stamped by the Redis pub/sub listener
(`core/redis_client.py`): `{"type": "newPosition", ...}`. -/
def realtimeBroadcastType : String := "newPosition"

/-- The spec's list of server-to-client message types (§6). -/
def wsServerMsgTypes : List String :=
  ["initialPathSegments", "catchUpPathSegments", "telemetryResponse",
   "newPosition", "error", "unknownResponse"]

/-- C9: a successfully handled `getInitialData` is answered with exactly
one `initialPathSegments` reply; a successfully handled `updateViewport`
that joins at least one new cell is answered with exactly one
`catchUpPathSegments` reply; both types are among the server-to-client
message types, as is the listener's `newPosition` broadcast. -/
theorem ws_reply_types :
    (∀ run : WsHandlerRun, run.succeeds = true →
      wsReplyTypes .getInitialData run = [("initialPathSegments")]) ∧
    (∀ run : WsHandlerRun, run.succeeds = true → run.joinedNewCells = true →
      wsReplyTypes .updateViewport run = [("catchUpPathSegments")]) ∧
    ("initialPathSegments") ∈ wsServerMsgTypes ∧
    ("catchUpPathSegments") ∈ wsServerMsgTypes ∧
    realtimeBroadcastType ∈ wsServerMsgTypes := by
  refine ⟨?_, ?_, by decide, by decide, by decide⟩
  · intro run h
    simp [wsReplyTypes, h]
  · intro run h hj
    simp [wsReplyTypes, h, hj]

/-- C9 witness: the dispatch evaluated on a successful run that joins
new cells. -/
theorem ws_reply_types_witness :
    wsReplyTypes WsClientMsgType.getInitialData
        { succeeds := true, joinedNewCells := false } =
      [("initialPathSegments")] ∧
    wsReplyTypes WsClientMsgType.updateViewport
        { succeeds := true, joinedNewCells := true } =
      [("catchUpPathSegments")] :=
  ⟨ws_reply_types.1 { succeeds := true, joinedNewCells := false } rfl,
   ws_reply_types.2.1 { succeeds := true, joinedNewCells := true } rfl rfl⟩

/-! ## Callsign validation (`models/callsign.py`,
`Callsign.validate_callsign_format`)

Modelled over the ASCII fragment of Python string semantics.  The
validator uppercases, rejects empty or overlong strings and a
non-letter first character, splits at the first hyphen, and validates
the base and SSID chunks; `none` models the raised error. -/

/-- `str.isalpha`, ASCII fragment. -/
def isAsciiAlpha (c : Char) : Bool :=
  (decide ('A' ≤ c) && decide (c ≤ 'Z')) || (decide ('a' ≤ c) && decide (c ≤ 'z'))

/-- Membership in `string.ascii_uppercase + string.digits`. -/
def isUpperAlnum (c : Char) : Bool :=
  (decide ('A' ≤ c) && decide (c ≤ 'Z')) || isDigitChar c

/-- `s.split('-', 1)` when a hyphen is present: the parts before and
after the first hyphen. -/
def splitHyphenOnce : List Char → Option (List Char × List Char)
  | [] => none
  | c :: cs =>
    if c = '-' then some ([], cs)
    else
      match splitHyphenOnce cs with
      | some (a, b) => some (c :: a, b)
      | none => none

/-- Base-chunk rules: length in `[3, 6]`, uppercase alphanumeric. -/
def base_callsign_ok (b : List Char) : Bool :=
  (decide (3 ≤ b.length) && decide (b.length ≤ 6)) && b.all isUpperAlnum

/-- SSID rules: length in `[1, 2]`, uppercase alphanumeric, and a purely
numeric SSID must lie in `[1, 15]`. -/
def ssid_ok (ss : List Char) : Bool :=
  (decide (1 ≤ ss.length) && decide (ss.length ≤ 2)) && ss.all isUpperAlnum &&
    (!(ss.all isDigitChar) ||
      (decide (1 ≤ natOfDigits ss) && decide (natOfDigits ss ≤ 15)))

/-- `validate_callsign_format` after uppercasing: the chain of checks of
`callsign.py` lines 36–92 on the uppercased character list. -/
def validate_callsign_core : List Char → Option (List Char)
  | [] => none
  | c0 :: rest =>
    if 9 < (c0 :: rest).length then none
    else if isAsciiAlpha c0 then
      match splitHyphenOnce (c0 :: rest) with
      | none =>
        if base_callsign_ok (c0 :: rest) then some (c0 :: rest) else none
      | some (b, ss) =>
        if b.isEmpty || ss.isEmpty || ss.contains ('-') then none
        else if base_callsign_ok b && ssid_ok ss then some (c0 :: rest) else none
    else none

/-- `Callsign.validate_callsign_format`: uppercase, then validate. -/
def validate_callsign_format (value : List Char) : Option (List Char) :=
  validate_callsign_core (value.map pyUpperChar)

/-- The claim's BASE shape: 3–6 ASCII alphanumerics, first a letter. -/
def claimBase (b : List Char) : Bool :=
  (decide (3 ≤ b.length) && decide (b.length ≤ 6)) && b.all isUpperAlnum &&
    (match b with
     | [] => false
     | c :: _ => isAsciiAlpha c)

/-- The claim's SSID shape: 1–2 alphanumerics, numeric value in
`[1, 15]` when purely numeric. -/
def claimSSID (ss : List Char) : Bool :=
  (decide (1 ≤ ss.length) && decide (ss.length ≤ 2)) && ss.all isUpperAlnum &&
    (!(ss.all isDigitChar) ||
      (decide (1 ≤ natOfDigits ss) && decide (natOfDigits ss ≤ 15)))

/-- The claim's accepted shape `BASE[-SSID]` with total length at most 9
(a string of this shape has no hyphen except the single separator, so
splitting at the first hyphen recovers BASE and SSID). -/
def claim_callsign_shape (u : List Char) : Bool :=
  decide (u.length ≤ 9) &&
    (match splitHyphenOnce u with
     | none => claimBase u
     | some (b, ss) => claimBase b && claimSSID ss)

theorem claimSSID_eq_ssid_ok (ss : List Char) : claimSSID ss = ssid_ok ss := rfl

theorem claimBase_cons (c : Char) (l : List Char) :
    claimBase (c :: l) = (base_callsign_ok (c :: l) && isAsciiAlpha c) := by
  simp [claimBase, base_callsign_ok, Bool.and_assoc]

theorem contains_hyphen_not_alnum (ss : List Char)
    (h : ('-') ∈ ss) : ss.all isUpperAlnum = false := by
  induction ss with
  | nil => cases h
  | cons c cs ih =>
    rcases List.mem_cons.mp h with h1 | h1
    · rw [List.all_cons, ← h1]
      simp [isUpperAlnum, isDigitChar]
    · simp [List.all_cons, ih h1]

theorem splitHyphenOnce_head (c : Char) (cs b ss : List Char)
    (h : splitHyphenOnce (c :: cs) = some (b, ss)) :
    b = [] ∨ ∃ a, b = c :: a := by
  by_cases hc : c = '-'
  · left
    rw [show splitHyphenOnce (c :: cs) = some ([], cs) by
      simp [splitHyphenOnce, hc]] at h
    exact (Prod.mk.injEq _ _ _ _ ▸ (Option.some.injEq _ _ ▸ h)).1.symm
  · right
    simp only [splitHyphenOnce, if_neg hc] at h
    cases hsp : splitHyphenOnce cs with
    | none =>
      rw [hsp] at h
      cases h
    | some pair =>
      obtain ⟨a2, b2⟩ := pair
      rw [hsp] at h
      simp only [Option.some.injEq, Prod.mk.injEq] at h
      exact ⟨a2, h.1.symm⟩

theorem validate_core_isSome (cu : List Char) :
    (validate_callsign_core cu).isSome = claim_callsign_shape cu := by
  cases cu with
  | nil => rfl
  | cons c0 rest =>
    by_cases hlen : 9 < rest.length + 1
    · have hd8 : ¬ (rest.length ≤ 8) := by omega
      simp [validate_callsign_core, claim_callsign_shape, hlen, hd8]
    · have hd8 : rest.length ≤ 8 := by omega
      by_cases halpha : isAsciiAlpha c0 = true
      · cases hsp : splitHyphenOnce (c0 :: rest) with
        | none =>
          cases hbOK : base_callsign_ok (c0 :: rest) <;>
            simp [validate_callsign_core, claim_callsign_shape, hlen, hd8,
              halpha, hsp, claimBase_cons, hbOK]
        | some pair =>
          obtain ⟨b, ss⟩ := pair
          by_cases hbe : b = []
          · subst hbe
            simp [validate_callsign_core, claim_callsign_shape, hlen, hd8,
              halpha, hsp, claimBase]
          · by_cases hse : ss = []
            · subst hse
              simp [validate_callsign_core, claim_callsign_shape, hlen, hd8,
                halpha, hsp, hbe, claimSSID]
            · by_cases hsc : ('-') ∈ ss
              · have hnal := contains_hyphen_not_alnum ss hsc
                simp [validate_callsign_core, claim_callsign_shape, hlen, hd8,
                  halpha, hsp, hbe, hse, hsc, claimSSID_eq_ssid_ok, ssid_ok, hnal]
              · rcases splitHyphenOnce_head c0 rest b ss hsp with hb | ⟨a, hb⟩
                · exact absurd hb hbe
                · subst hb
                  cases hbOK : base_callsign_ok (c0 :: a) <;>
                    cases hsOK : ssid_ok ss <;>
                      simp [validate_callsign_core, claim_callsign_shape, hlen,
                        hd8, halpha, hsp, hbe, hse, hsc, claimBase_cons,
                        claimSSID_eq_ssid_ok, hbOK, hsOK]
      · have halpha2 : isAsciiAlpha c0 = false := by
          cases h2 : isAsciiAlpha c0 with
          | true => exact absurd h2 halpha
          | false => rfl
        cases hsp : splitHyphenOnce (c0 :: rest) with
        | none =>
          simp [validate_callsign_core, claim_callsign_shape, hlen, hd8,
            halpha2, hsp, claimBase_cons]
        | some pair =>
          obtain ⟨b, ss⟩ := pair
          rcases splitHyphenOnce_head c0 rest b ss hsp with hb | ⟨a, hb⟩
          · subst hb
            simp [validate_callsign_core, claim_callsign_shape, hlen, hd8,
              halpha2, hsp, claimBase]
          · subst hb
            simp [validate_callsign_core, claim_callsign_shape, hlen, hd8,
              halpha2, hsp, claimBase_cons]

theorem validate_core_some_eq (cu r : List Char)
    (h : validate_callsign_core cu = some r) : r = cu := by
  cases cu with
  | nil => cases h
  | cons c0 rest =>
    simp only [validate_callsign_core] at h
    by_cases hlen : 9 < (c0 :: rest).length
    · rw [if_pos hlen] at h
      cases h
    · rw [if_neg hlen] at h
      by_cases halpha : isAsciiAlpha c0 = true
      · rw [if_pos halpha] at h
        cases hsp : splitHyphenOnce (c0 :: rest) with
        | none =>
          rw [hsp] at h
          simp only at h
          by_cases hb : base_callsign_ok (c0 :: rest) = true
          · rw [if_pos hb] at h
            exact (Option.some.injEq _ _ ▸ h).symm
          · rw [if_neg hb] at h
            cases h
        | some pair =>
          obtain ⟨b, ss⟩ := pair
          rw [hsp] at h
          simp only at h
          by_cases hguard : (b.isEmpty || ss.isEmpty || ss.contains ('-')) = true
          · rw [if_pos hguard] at h
            cases h
          · rw [if_neg hguard] at h
            by_cases hok : (base_callsign_ok b && ssid_ok ss) = true
            · rw [if_pos hok] at h
              exact (Option.some.injEq _ _ ▸ h).symm
            · rw [if_neg hok] at h
              cases h
      · rw [if_neg halpha] at h
        cases h

/-- C7: the validator accepts exactly the strings whose uppercased form
is `BASE[-SSID]` with BASE 3–6 ASCII alphanumerics starting with a
letter, SSID 1–2 alphanumerics (numeric SSIDs in `[1, 15]`) and total
length at most 9; accepted callsigns are returned uppercased; the
spec's boundary examples behave as listed. -/
theorem callsign_validation :
    (∀ value : List Char,
      (validate_callsign_format value).isSome =
        claim_callsign_shape (value.map pyUpperChar)) ∧
    (∀ value r : List Char, validate_callsign_format value = some r →
      r = value.map pyUpperChar) ∧
    validate_callsign_format (String.toList ("K8XYZ")) =
      some (String.toList ("K8XYZ")) ∧
    validate_callsign_format (String.toList ("N0CALL-11")) =
      some (String.toList ("N0CALL-11")) ∧
    validate_callsign_format (String.toList ("k8xyz")) =
      some (String.toList ("K8XYZ")) ∧
    validate_callsign_format (String.toList ("N0-5")) = none ∧
    validate_callsign_format (String.toList ("-11")) = none ∧
    validate_callsign_format (String.toList ("N8XYZ-0")) = none ∧
    validate_callsign_format (String.toList ("N8XYZ-16")) = none ∧
    validate_callsign_format (String.toList ("AB")) = none ∧
    validate_callsign_format (String.toList ("TOOLONGCALL-1")) = none := by
  refine ⟨?_, ?_, by decide, by decide, by decide, by decide, by decide,
    by decide, by decide, by decide, by decide⟩
  · intro value
    exact validate_core_isSome (value.map pyUpperChar)
  · intro value r h
    exact validate_core_some_eq (value.map pyUpperChar) r h

/-- C7 witness: the uppercase-normalization law applied at the accepted
lowercase callsign `k8xyz`. -/
theorem callsign_validation_witness :
    String.toList ("K8XYZ") =
      (String.toList ("k8xyz")).map pyUpperChar :=
  callsign_validation.2.1 (String.toList ("k8xyz")) (String.toList ("K8XYZ"))
    (by decide)

end UmichBalloons
